import Mathlib

/-!
Verification of the fractalater rendering core: a shallow embedding of the
GLSL fragment shader (`src/shaders/fragment.glsl`), the adaptive quality
controller (`src/components/FractalCanvas.tsx`), and the animation driver
(`src/components/FractalEditor.tsx`), over exact real arithmetic.
-/

noncomputable section
open scoped Classical

/-- A 2-component vector (GLSL `vec2`), representing a complex number. -/
structure V2 where
  x : ℝ
  y : ℝ

/-- A 3-component vector (GLSL `vec3`), representing an RGB color or HSV triple. -/
structure V3 where
  x : ℝ
  y : ℝ
  z : ℝ

/-- A 4-component vector (GLSL `vec4`), used by the RGB/HSV conversions. -/
structure V4 where
  x : ℝ
  y : ℝ
  z : ℝ
  w : ℝ

attribute [ext] V2 V3 V4

instance : Add V2 := ⟨fun a b => ⟨a.x + b.x, a.y + b.y⟩⟩
instance : Sub V2 := ⟨fun a b => ⟨a.x - b.x, a.y - b.y⟩⟩
instance : SMul ℝ V2 := ⟨fun r v => ⟨r * v.x, r * v.y⟩⟩

instance : Add V3 := ⟨fun a b => ⟨a.x + b.x, a.y + b.y, a.z + b.z⟩⟩
instance : Sub V3 := ⟨fun a b => ⟨a.x - b.x, a.y - b.y, a.z - b.z⟩⟩
instance : SMul ℝ V3 := ⟨fun r v => ⟨r * v.x, r * v.y, r * v.z⟩⟩

@[simp] lemma V2add_x (a b : V2) : (a + b).x = a.x + b.x := rfl
@[simp] lemma V2add_y (a b : V2) : (a + b).y = a.y + b.y := rfl
@[simp] lemma V2sub_x (a b : V2) : (a - b).x = a.x - b.x := rfl
@[simp] lemma V2sub_y (a b : V2) : (a - b).y = a.y - b.y := rfl
@[simp] lemma V2smul_x (r : ℝ) (v : V2) : (r • v).x = r * v.x := rfl
@[simp] lemma V2smul_y (r : ℝ) (v : V2) : (r • v).y = r * v.y := rfl
@[simp] lemma V3add_x (a b : V3) : (a + b).x = a.x + b.x := rfl
@[simp] lemma V3add_y (a b : V3) : (a + b).y = a.y + b.y := rfl
@[simp] lemma V3add_z (a b : V3) : (a + b).z = a.z + b.z := rfl
@[simp] lemma V3smul_x (r : ℝ) (v : V3) : (r • v).x = r * v.x := rfl
@[simp] lemma V3smul_y (r : ℝ) (v : V3) : (r • v).y = r * v.y := rfl
@[simp] lemma V3smul_z (r : ℝ) (v : V3) : (r • v).z = r * v.z := rfl

/-- GLSL componentwise `vec2 * vec2`. -/
def v2mul (a b : V2) : V2 := ⟨a.x * b.x, a.y * b.y⟩

/-- GLSL componentwise `vec3 * vec3`. -/
def v3mul (a b : V3) : V3 := ⟨a.x * b.x, a.y * b.y, a.z * b.z⟩

/-- GLSL `fract`: fractional part. -/
def fractR (t : ℝ) : ℝ := t - ⌊t⌋

/-- GLSL scalar `clamp(x, lo, hi) = min(max(x, lo), hi)`. -/
def clampR (t lo hi : ℝ) : ℝ := min (max t lo) hi

/-- GLSL scalar `mix(a, b, t) = a*(1-t) + b*t`. -/
def mixR (a b t : ℝ) : ℝ := a * (1 - t) + b * t

/-- GLSL scalar `step(edge, x)`: 0 when `x < edge`, else 1. -/
def stepR (edge t : ℝ) : ℝ := if t < edge then 0 else 1

/-- GLSL componentwise `mix` on `vec3` with scalar interpolant. -/
def mix3 (a b : V3) (t : ℝ) : V3 := ⟨mixR a.x b.x t, mixR a.y b.y t, mixR a.z b.z t⟩

/-- GLSL componentwise `mix` on `vec4` with scalar interpolant. -/
def mix4 (a b : V4) (t : ℝ) : V4 := ⟨mixR a.x b.x t, mixR a.y b.y t, mixR a.z b.z t, mixR a.w b.w t⟩

/-- GLSL componentwise `clamp` on `vec3` with scalar bounds. -/
def clamp3 (v : V3) (lo hi : ℝ) : V3 := ⟨clampR v.x lo hi, clampR v.y lo hi, clampR v.z lo hi⟩

/-- GLSL componentwise `cos` on `vec3`. -/
def cos3 (v : V3) : V3 := ⟨Real.cos v.x, Real.cos v.y, Real.cos v.z⟩

/-- GLSL componentwise `floor` on `vec3`. -/
def floor3 (v : V3) : V3 := ⟨⌊v.x⌋, ⌊v.y⌋, ⌊v.z⌋⟩

/-- GLSL componentwise division of a `vec3` by a scalar. -/
def div3 (v : V3) (r : ℝ) : V3 := ⟨v.x / r, v.y / r, v.z / r⟩

/-- GLSL componentwise `pow` on `vec3` with scalar exponent (real power). -/
def pow3 (v : V3) (e : ℝ) : V3 := ⟨v.x ^ e, v.y ^ e, v.z ^ e⟩

/-- GLSL `dot` on `vec2`. -/
def dotV (a b : V2) : ℝ := a.x * b.x + a.y * b.y

/-- GLSL `dot` on `vec3`. -/
def dot3 (a b : V3) : ℝ := a.x * b.x + a.y * b.y + a.z * b.z

/-- GLSL `length` on `vec2`. -/
def lengthV (v : V2) : ℝ := Real.sqrt (dotV v v)

/-- GLSL `atan(y, x)`: the two-argument arctangent, realized as the complex argument. -/
def atan2 (y x : ℝ) : ℝ := Complex.arg ⟨x, y⟩

/-- Shader constant `EPSILON`. -/
def EPSILON : ℝ := 1e-10

/-- Shader constant `NEWTON_TOLERANCE`. -/
def NEWTON_TOLERANCE : ℝ := 0.0001

/-- Shader constant `PI` (as written in the source, not the exact real π). -/
def PI_GLSL : ℝ := 3.14159265359

/-- Shader constant `NEWTON_ROOT_1`. -/
def NEWTON_ROOT_1 : V2 := ⟨1, 0⟩

/-- Shader constant `NEWTON_ROOT_2`. -/
def NEWTON_ROOT_2 : V2 := ⟨-0.5, 0.866025⟩

/-- Shader constant `NEWTON_ROOT_3`. -/
def NEWTON_ROOT_3 : V2 := ⟨-0.5, -0.866025⟩

/-- `complexMul` from the shader. -/
def complexMul (a b : V2) : V2 :=
  ⟨a.x * b.x - a.y * b.y, a.x * b.y + a.y * b.x⟩

/-- `complexDiv` from the shader: epsilon-guarded complex division. -/
def complexDiv (a b : V2) : V2 :=
  let denom := b.x * b.x + b.y * b.y
  if denom < EPSILON then ⟨0, 0⟩
  else ⟨(a.x * b.x + a.y * b.y) / denom, (a.y * b.x - a.x * b.y) / denom⟩

/-- `complexPow` from the shader: magnitude/angle form with origin guard. -/
def complexPow (z : V2) (n : ℝ) : V2 :=
  let r := lengthV z
  if r < EPSILON then ⟨0, 0⟩
  else
    let theta := atan2 z.y z.x
    (r ^ n) • (⟨Real.cos (n * theta), Real.sin (n * theta)⟩ : V2)

/-- `hsv2rgb` from the shader. -/
def hsv2rgb (c : V3) : V3 :=
  let K : V4 := ⟨1, 2 / 3, 1 / 3, 3⟩
  let p : V3 := ⟨|fractR (c.x + K.x) * 6 - K.w|,
                 |fractR (c.x + K.y) * 6 - K.w|,
                 |fractR (c.x + K.z) * 6 - K.w|⟩
  c.z • mix3 ⟨K.x, K.x, K.x⟩ (clamp3 (p - ⟨K.x, K.x, K.x⟩) 0 1) c.y

/-- `rgb2hsv` from the shader. -/
def rgb2hsv (c : V3) : V3 :=
  let K : V4 := ⟨0, -1 / 3, 2 / 3, -1⟩
  let p : V4 := mix4 ⟨c.z, c.y, K.w, K.z⟩ ⟨c.y, c.z, K.x, K.y⟩ (stepR c.z c.y)
  let q : V4 := mix4 ⟨p.x, p.y, p.w, c.x⟩ ⟨c.x, p.y, p.z, p.x⟩ (stepR p.x c.x)
  let d : ℝ := q.x - min q.w q.y
  let e : ℝ := 1e-10
  ⟨|q.z + (q.w - q.y) / (6 * d + e)|, d / (q.x + e), q.x⟩

/-- `palette` from the shader: the cosine palette `a + b*cos(6.28318*(c*t + d))`. -/
def palette (t : ℝ) (a b c d : V3) : V3 :=
  a + v3mul b (cos3 ((6.28318 : ℝ) • (t • c + d)))

/-- `getColorScheme` from the shader: palette lookup (9 schemes) on `fract t`. -/
def getColorScheme (t0 : ℝ) (scheme : ℤ) : V3 :=
  let t := fractR t0
  if scheme = 0 then palette t ⟨0.5, 0.5, 0.5⟩ ⟨0.5, 0.5, 0.5⟩ ⟨1, 1, 1⟩ ⟨0, 0.1, 0.2⟩
  else if scheme = 1 then palette t ⟨0.5, 0.5, 0.5⟩ ⟨0.5, 0.5, 0.5⟩ ⟨1, 1, 1⟩ ⟨0, 0.33, 0.67⟩
  else if scheme = 2 then palette t ⟨0.5, 0.2, 0⟩ ⟨0.5, 0.4, 0.2⟩ ⟨1, 0.8, 0.4⟩ ⟨0, 0.1, 0.2⟩
  else if scheme = 3 then palette t ⟨0, 0.2, 0.4⟩ ⟨0, 0.4, 0.5⟩ ⟨0, 0.6, 0.8⟩ ⟨0, 0.1, 0.3⟩
  else if scheme = 4 then hsv2rgb ⟨t, 0.85, 0.95⟩
  else if scheme = 5 then ⟨t, t, t⟩
  else if scheme = 6 then palette t ⟨0.5, 0.5, 0.5⟩ ⟨0.5, 0.5, 0.5⟩ ⟨2, 1, 0⟩ ⟨0.5, 0.2, 0.25⟩
  else if scheme = 7 then
    (1.5 : ℝ) • pow3 (palette t ⟨0.5, 0.5, 0.5⟩ ⟨0.5, 0.5, 0.5⟩ ⟨1, 1, 1⟩ ⟨0, 0.1, 0.2⟩) 0.5
  else palette t ⟨0.8, 0.8, 0.8⟩ ⟨0.2, 0.2, 0.2⟩ ⟨1, 1, 1⟩ ⟨0, 0.33, 0.67⟩

/-- The shader's uniforms (per-render parameters), as set by `FractalCanvas.render`. -/
structure Uniforms where
  center : V2
  zoom : ℝ
  maxIterations : ℕ
  escapeRadius : ℝ
  fractalType : ℤ
  julia : V2
  power : ℝ
  colorScheme : ℤ
  coloringMethod : ℤ
  colorOffset : ℝ
  colorScale : ℝ
  time : ℝ
  colorCycleSpeed : ℝ
  glowIntensity : ℝ
  posterize : ℝ
  hueShift : ℝ
  saturation : ℝ
  brightness : ℝ
  stripeFrequency : ℝ
  orbitTrapSize : ℝ

/-- `iterateMandelbrotJulia` from the shader: `z^n + c`. -/
def iterateMandelbrotJulia (u : Uniforms) (z c : V2) : V2 :=
  complexPow z u.power + c

/-- `iterateBurningShip` from the shader: `(|Re z|, |Im z|)^n + c`. -/
def iterateBurningShip (u : Uniforms) (z c : V2) : V2 :=
  complexPow ⟨|z.x|, |z.y|⟩ u.power + c

/-- `iterateTricorn` from the shader: `conj(z)^n + c`. -/
def iterateTricorn (u : Uniforms) (z c : V2) : V2 :=
  complexPow ⟨z.x, -z.y⟩ u.power + c

/-- `iteratePhoenix` from the shader: `z^n + c + vec2(0.5667,0)*prevZ`
(the product is GLSL componentwise `vec2` multiplication). -/
def iteratePhoenix (u : Uniforms) (z c prevZ : V2) : V2 :=
  complexPow z u.power + c + v2mul ⟨0.5667, 0⟩ prevZ

/-- `iterateNewton` from the shader: one Newton step for `z^3 - 1`, returning the
new `z` and the `rootIndex` out-parameter (0, 1, 2 when converged, else -1). -/
def iterateNewton (z : V2) : V2 × ℤ :=
  let z2 := complexMul z z
  let z3 := complexMul z2 z
  let denom := (3 : ℝ) • z2
  if lengthV denom < EPSILON then (z, -1)
  else
    let newZ := z - complexDiv (z3 - ⟨1, 0⟩) denom
    let rootIndex : ℤ :=
      if lengthV (newZ - NEWTON_ROOT_1) < NEWTON_TOLERANCE then 0
      else if lengthV (newZ - NEWTON_ROOT_2) < NEWTON_TOLERANCE then 1
      else if lengthV (newZ - NEWTON_ROOT_3) < NEWTON_TOLERANCE then 2
      else -1
    (newZ, rootIndex)

/-- `calcEscapeTimeColor` from the shader. -/
def calcEscapeTimeColor (iter maxIter : ℝ) : ℝ := iter / maxIter

/-- `calcSmoothColor` from the shader. -/
def calcSmoothColor (u : Uniforms) (iter maxIter : ℝ) (z : V2) : ℝ :=
  let iter' :=
    if iter < maxIter then
      let log_zn := Real.log (dotV z z) / 2
      let nu := Real.log (max (log_zn / Real.log 2) EPSILON) / Real.log (max u.power 1.1)
      iter + 1 - nu
    else iter
  iter' / maxIter

/-- `calcOrbitTrapColor` from the shader. -/
def calcOrbitTrapColor (u : Uniforms) (minDist : ℝ) : ℝ :=
  clampR (1 - minDist / u.orbitTrapSize) 0 1

/-- `calcAngleColor` from the shader. -/
def calcAngleColor (totalAngle iter : ℝ) : ℝ :=
  totalAngle / (max iter 1 * PI_GLSL * 2) + 0.5

/-- `calcStripeColor` from the shader. -/
def calcStripeColor (stripe iter : ℝ) : ℝ :=
  stripe / max iter 1 * 0.5 + 0.5

/-- `calcDomainColor` from the shader. -/
def calcDomainColor (z : V2) : ℝ :=
  atan2 z.y z.x / (2 * PI_GLSL) + 0.5

/-- `calcNewtonColor` from the shader. -/
def calcNewtonColor (rootIndex : ℤ) (iter maxIter : ℝ) : ℝ :=
  if 0 ≤ rootIndex then (rootIndex : ℝ) / 3 + iter / maxIter * 0.3
  else 0

/-- `calculateColorValue` from the shader: dispatch on family and coloring method. -/
def calculateColorValue (u : Uniforms) (iter maxIter : ℝ) (z : V2)
    (minDist totalAngle stripe : ℝ) (rootIndex : ℤ) : ℝ :=
  if u.fractalType = 5 then calcNewtonColor rootIndex iter maxIter
  else if u.coloringMethod = 0 then calcEscapeTimeColor iter maxIter
  else if u.coloringMethod = 1 then calcSmoothColor u iter maxIter z
  else if u.coloringMethod = 2 then calcOrbitTrapColor u minDist
  else if u.coloringMethod = 3 then calcAngleColor totalAngle iter
  else if u.coloringMethod = 4 then calcStripeColor stripe iter
  else calcDomainColor z

/-- `applyHueShift` from the shader. -/
def applyHueShift (u : Uniforms) (color : V3) : V3 :=
  if u.hueShift > 0.001 then
    let hsv := rgb2hsv color
    hsv2rgb ⟨fractR (hsv.x + u.hueShift), hsv.y, hsv.z⟩
  else color

/-- `applySaturation` from the shader. -/
def applySaturation (u : Uniforms) (color : V3) : V3 :=
  let gray := dot3 color ⟨0.299, 0.587, 0.114⟩
  mix3 ⟨gray, gray, gray⟩ color u.saturation

/-- `applyGlow` from the shader. -/
def applyGlow (u : Uniforms) (color : V3) (iter maxIter colorVal : ℝ) : V3 :=
  if u.glowIntensity > 0 ∧ u.fractalType ≠ 5 then
    let glow := 1 - iter / maxIter
    let glow := glow ^ (3 : ℝ) * u.glowIntensity
    color + glow • getColorScheme (colorVal + 0.5) u.colorScheme
  else color

/-- `applyPosterize` from the shader. -/
def applyPosterize (u : Uniforms) (color : V3) : V3 :=
  if u.posterize > 1.5 then div3 (floor3 (u.posterize • color)) u.posterize
  else color

/-- `postProcess` from the shader: hue shift, saturation, brightness, glow,
posterize, then clamp to [0,1]. -/
def postProcess (u : Uniforms) (color : V3) (iter maxIter colorVal : ℝ) : V3 :=
  let c1 := applyHueShift u color
  let c2 := applySaturation u c1
  let c3 := u.brightness • c2
  let c4 := applyGlow u c3 iter maxIter colorVal
  let c5 := applyPosterize u c4
  clamp3 c5 0 1

/-- The per-pixel iteration state of the shader's main loop. -/
structure IterState where
  z : V2
  prevZ : V2
  iter : ℕ
  minDist : ℝ
  totalAngle : ℝ
  stripe : ℝ
  rootIndex : ℤ

/-- `updateOrbitStats` from the shader, acting on the loop state: records the
pre-transition `z` in the running minimum distance, stripe and angle sums. -/
def updateOrbitStats (u : Uniforms) (s : IterState) : IterState :=
  let dist := lengthV s.z
  { s with
    minDist := min s.minDist dist
    stripe := if dist > EPSILON then s.stripe + Real.sin (atan2 s.z.y s.z.x * u.stripeFrequency)
              else s.stripe
    totalAngle := if dist > EPSILON then s.totalAngle + atan2 s.z.y s.z.x
                  else s.totalAngle }

/-- The non-Newton family dispatch of the main loop body: applies the selected
per-step transition to the state (the Phoenix branch also shifts `prevZ`). -/
def famDispatch (u : Uniforms) (s1 : IterState) (c : V2) : IterState :=
  if u.fractalType = 4 then { s1 with z := iteratePhoenix u s1.z c s1.prevZ, prevZ := s1.z }
  else if u.fractalType = 3 then { s1 with z := iterateTricorn u s1.z c }
  else if u.fractalType = 2 then { s1 with z := iterateBurningShip u s1.z c }
  else { s1 with z := iterateMandelbrotJulia u s1.z c }

/-- The shader's main iteration loop, by remaining fuel (the source loop runs the
body `min u_maxIterations 10000` times unless it breaks early on escape or on
Newton convergence). -/
def iterLoop (u : Uniforms) (c : V2) : ℕ → IterState → IterState
  | 0, s => s
  | fuel + 1, s =>
    let s1 := updateOrbitStats u s
    if u.fractalType = 5 then
      let r := iterateNewton s1.z
      let s2 := { s1 with z := r.1, rootIndex := r.2 }
      if 0 ≤ s2.rootIndex then s2
      else iterLoop u c fuel { s2 with iter := s2.iter + 1 }
    else
      let s2 := famDispatch u s1 c
      if dotV s2.z s2.z > u.escapeRadius * u.escapeRadius then s2
      else iterLoop u c fuel { s2 with iter := s2.iter + 1 }

/-- The shader main's initial `z`: the plane coordinate for the Julia and Newton
families, the origin otherwise. -/
def initZ (u : Uniforms) (coord : V2) : V2 :=
  if u.fractalType = 1 then coord
  else if u.fractalType = 5 then coord
  else ⟨0, 0⟩

/-- The shader main's effective `c`: the Julia constant for the Julia family,
the plane coordinate otherwise. -/
def effC (u : Uniforms) (coord : V2) : V2 :=
  if u.fractalType = 1 then u.julia else coord

/-- The shader main's initial iteration state. -/
def initState (u : Uniforms) (coord : V2) : IterState :=
  { z := initZ u coord, prevZ := ⟨0, 0⟩, iter := 0, minDist := 1e20,
    totalAngle := 0, stripe := 0, rootIndex := -1 }

/-- Run the shader main's iteration loop from a plane coordinate. -/
def runIteration (u : Uniforms) (coord : V2) : IterState :=
  iterLoop u (effC u coord) (min u.maxIterations 10000) (initState u coord)

/-- The shader main's scalar color value before scale/offset/cycle. -/
def colorValueOf (u : Uniforms) (s : IterState) : ℝ :=
  calculateColorValue u (s.iter : ℝ) (u.maxIterations : ℝ) s.z s.minDist s.totalAngle s.stripe
    s.rootIndex

/-- The shader main's final scalar color value (after color scale, offset and
time-based cycling). -/
def finalColorVal (u : Uniforms) (s : IterState) : ℝ :=
  colorValueOf u s * u.colorScale + u.colorOffset + u.time * u.colorCycleSpeed

/-- The shader main: evaluate one pixel at a plane coordinate, returning the
final RGB color (interior points of non-Newton families are black; everything
goes through `postProcess`). -/
def shadePixel (u : Uniforms) (coord : V2) : V3 :=
  let s := runIteration u coord
  let colorVal := finalColorVal u s
  let color :=
    if (s.iter : ℝ) ≥ (u.maxIterations : ℝ) ∧ u.fractalType ≠ 5 then (⟨0, 0, 0⟩ : V3)
    else getColorScheme colorVal u.colorScheme
  postProcess u color (s.iter : ℝ) (u.maxIterations : ℝ) colorVal

/-- The `z` obtained after the first transition of the shader's loop (the value
whose escape test decides whether `iterationsUsed = 0`), for the non-Newton
families: the loop's family dispatch applied to the initial state. -/
def firstStepZ (u : Uniforms) (coord : V2) : V2 :=
  (famDispatch u (initState u coord) (effC u coord)).z

/-- The fields of the `FractalParams` record read by the adaptive quality
controller and the animation-activity test (`FractalCanvas.tsx`). -/
structure FractalParams where
  zoom : ℝ
  maxIterations : ℝ
  performanceMode : Bool
  colorCycleSpeed : ℝ
  animateJulia : Bool
  autoZoom : Bool
  autoRotate : Bool
  autoHueShift : Bool
  autoPower : Bool

/-- `isAnimating` from `FractalCanvas.tsx`: any animation driver is active. -/
def isAnimating (p : FractalParams) : Prop :=
  p.colorCycleSpeed > 0 ∨ p.animateJulia = true ∨ p.autoZoom = true ∨ p.autoRotate = true ∨
    p.autoHueShift = true ∨ p.autoPower = true

/-- `getAdaptiveIterations` from `FractalCanvas.tsx`: zoom-adaptive iteration cap
with device ceiling and performance-mode ceiling. -/
def getAdaptiveIterations (mobile : Bool) (baseIterations zoom : ℝ)
    (performanceMode : Bool) : ℤ :=
  let zoomFactor := Real.logb 10 (max zoom 1)
  let adaptiveIterations := ⌊baseIterations * (1 + zoomFactor * 0.5)⌋
  let maxCap : ℤ := if mobile = true then 500 else 2000
  let maxCap := if performanceMode = true then min maxCap 200 else maxCap
  min adaptiveIterations maxCap

/-- The effective iteration cap computed in `FractalCanvas.render`: performance
mode applies only while some animation is active. -/
def effectiveIterations (mobile : Bool) (p : FractalParams) : ℤ :=
  getAdaptiveIterations mobile p.maxIterations p.zoom
    (if p.performanceMode = true ∧ isAnimating p then true else false)

/-- The auto power morph of the animation driver (`FractalEditor.tsx`):
`power = 2 + sin(timeSeconds * autoPowerSpeed * globalAnimSpeed) * 2`. -/
def autoPowerUpdate (timeSeconds autoPowerSpeed globalAnimSpeed : ℝ) : ℝ :=
  2 + Real.sin (timeSeconds * autoPowerSpeed * globalAnimSpeed) * 2

/-- The default parameter record (`DEFAULT_FRACTAL_PARAMS`, `types/fractal.ts`)
as shader uniforms. -/
def defaultUniforms : Uniforms :=
  { center := ⟨-0.5, 0⟩, zoom := 1, maxIterations := 100, escapeRadius := 4,
    fractalType := 0, julia := ⟨-0.7, 0.27015⟩, power := 2, colorScheme := 0,
    coloringMethod := 1, colorOffset := 0, colorScale := 1, time := 0,
    colorCycleSpeed := 0, glowIntensity := 0, posterize := 0, hueShift := 0,
    saturation := 1, brightness := 1, stripeFrequency := 10, orbitTrapSize := 0.5 }

/- ------------------------------------------------------------------ -/
/- Basic facts about the embedded vector math.                        -/
/- ------------------------------------------------------------------ -/

@[simp] lemma updateOrbitStats_z (u : Uniforms) (s : IterState) :
    (updateOrbitStats u s).z = s.z := rfl

@[simp] lemma updateOrbitStats_prevZ (u : Uniforms) (s : IterState) :
    (updateOrbitStats u s).prevZ = s.prevZ := rfl

@[simp] lemma updateOrbitStats_iter (u : Uniforms) (s : IterState) :
    (updateOrbitStats u s).iter = s.iter := rfl

@[simp] lemma updateOrbitStats_rootIndex (u : Uniforms) (s : IterState) :
    (updateOrbitStats u s).rootIndex = s.rootIndex := rfl

@[simp] lemma V2mk_add_mk (a b c d : ℝ) : ((⟨a, b⟩ : V2) + ⟨c, d⟩) = ⟨a + c, b + d⟩ := rfl
@[simp] lemma V2mk_sub_mk (a b c d : ℝ) : ((⟨a, b⟩ : V2) - ⟨c, d⟩) = ⟨a - c, b - d⟩ := rfl
@[simp] lemma V2smul_mk (r a b : ℝ) : (r • (⟨a, b⟩ : V2)) = ⟨r * a, r * b⟩ := rfl

lemma dotV_nonneg (v : V2) : 0 ≤ dotV v v := by
  have hx := mul_self_nonneg v.x
  have hy := mul_self_nonneg v.y
  unfold dotV; linarith

lemma lengthV_nonneg (v : V2) : 0 ≤ lengthV v := Real.sqrt_nonneg _

lemma lengthV_lt_iff (v : V2) {e : ℝ} (he : 0 < e) :
    lengthV v < e ↔ dotV v v < e ^ 2 := Real.sqrt_lt' he

lemma lengthV_real_axis (a : ℝ) : lengthV ⟨a, 0⟩ = |a| := by
  unfold lengthV dotV
  simp only [mul_zero, add_zero]
  rw [show a * a = a ^ 2 by ring, Real.sqrt_sq_eq_abs]

lemma abs_y_le_lengthV (v : V2) : |v.y| ≤ lengthV v := by
  unfold lengthV dotV
  rw [show |v.y| = Real.sqrt (v.y ^ 2) from (Real.sqrt_sq_eq_abs _).symm]
  apply Real.sqrt_le_sqrt
  have := mul_self_nonneg v.x
  nlinarith

lemma atan2_zero_of_pos (a : ℝ) (ha : 0 ≤ a) : atan2 0 a = 0 := by
  unfold atan2
  exact Complex.arg_ofReal_of_nonneg ha

lemma complexPow_zero_vec (n : ℝ) : complexPow ⟨0, 0⟩ n = ⟨0, 0⟩ := by
  unfold complexPow
  rw [if_pos]
  rw [show lengthV ⟨0, 0⟩ = |(0 : ℝ)| from lengthV_real_axis 0]
  unfold EPSILON; norm_num

lemma EPSILON_pos : (0 : ℝ) < EPSILON := by unfold EPSILON; norm_num

lemma lengthV_eq_of_sq (v : V2) (a : ℝ) (ha : 0 ≤ a) (h : dotV v v = a ^ 2) :
    lengthV v = a := by
  unfold lengthV; rw [h, Real.sqrt_sq ha]

/- ------------------------------------------------------------------ -/
/- C9: posterize idempotence.                                         -/
/- ------------------------------------------------------------------ -/

/-- C9. The posterize post-processing step is idempotent: for every RGB color
and every posterization level, applying `applyPosterize` twice yields the same
result as applying it once. -/
theorem applyPosterize_idempotent (u : Uniforms) (color : V3) :
    applyPosterize u (applyPosterize u color) = applyPosterize u color := by
  unfold applyPosterize
  by_cases h : u.posterize > 1.5
  · have hp : u.posterize ≠ 0 := by intro h0; rw [h0] at h; norm_num at h
    rw [if_pos h, if_pos h]
    ext <;> simp only [div3, floor3, V3smul_x, V3smul_y, V3smul_z] <;>
      rw [mul_div_cancel₀ _ hp] <;> rw [Int.floor_intCast]
  · rw [if_neg h, if_neg h]

/- ------------------------------------------------------------------ -/
/- C8: range of the auto power morph.                                 -/
/- ------------------------------------------------------------------ -/

/-- C8 counterexample. The animation driver's auto power morph can set the
power parameter to 0, which violates the claimed domain `[1,8]`: at time
`3π/2` seconds with unit speeds the update computes `2 + sin(3π/2)·2 = 0`. -/
theorem autoPowerUpdate_leaves_domain :
    autoPowerUpdate (3 * Real.pi / 2) 1 1 = 0 ∧
      ¬ (1 ≤ autoPowerUpdate (3 * Real.pi / 2) 1 1) := by
  have harg : (3 * Real.pi / 2) * 1 * 1 = Real.pi + Real.pi / 2 := by ring
  have hsin : Real.sin (3 * Real.pi / 2 * 1 * 1) = -1 := by
    rw [harg, Real.sin_add, Real.sin_pi, Real.cos_pi, Real.sin_pi_div_two]
    ring
  constructor
  · unfold autoPowerUpdate; rw [hsin]; ring
  · unfold autoPowerUpdate; rw [hsin]; norm_num

/-- C8 (amended). Each tick of the auto power morph keeps the power parameter
within `[0, 4]` (not within the UI domain `[1, 8]`: the lower bound 1 can be
violated). -/
theorem autoPowerUpdate_range (t sp g : ℝ) :
    0 ≤ autoPowerUpdate t sp g ∧ autoPowerUpdate t sp g ≤ 4 := by
  unfold autoPowerUpdate
  have h1 := Real.neg_one_le_sin (t * sp * g)
  have h2 := Real.sin_le_one (t * sp * g)
  constructor <;> nlinarith

/- ------------------------------------------------------------------ -/
/- C4 and C5: the adaptive quality controller.                        -/
/- ------------------------------------------------------------------ -/

lemma logb_ten_thousand : Real.logb 10 1000 = 3 := by
  rw [show (1000 : ℝ) = 10 ^ (3 : ℕ) by norm_num, Real.logb_pow,
    Real.logb_self_eq_one (by norm_num)]
  norm_num

/-- C4. On a non-mobile device with performance mode inactive, the adaptive
controller computes the cap as `floor(base · (1 + 0.5·log10(max(zoom,1))))`
capped at 2000; in particular zoom 1000 with base cap 100 gives 250. -/
theorem getAdaptiveIterations_formula :
    (∀ base zoom : ℝ, getAdaptiveIterations false base zoom false =
        min ⌊base * (1 + Real.logb 10 (max zoom 1) * 0.5)⌋ 2000) ∧
      getAdaptiveIterations false 100 1000 false = 250 := by
  have hgen : ∀ base zoom : ℝ, getAdaptiveIterations false base zoom false =
      min ⌊base * (1 + Real.logb 10 (max zoom 1) * 0.5)⌋ 2000 := by
    intro base zoom
    unfold getAdaptiveIterations
    norm_num
  refine ⟨hgen, ?_⟩
  rw [hgen 100 1000, show max (1000 : ℝ) 1 = 1000 by norm_num, logb_ten_thousand]
  rw [show (100 : ℝ) * (1 + 3 * 0.5) = ((250 : ℤ) : ℝ) by norm_num, Int.floor_intCast]
  norm_num

/-- Concrete parameter record used to exhibit the performance-mode cap. -/
def perfZoomParams : FractalParams :=
  { zoom := 1000, maxIterations := 100, performanceMode := true,
    colorCycleSpeed := 0, animateJulia := false, autoZoom := true,
    autoRotate := false, autoHueShift := false, autoPower := false }

/-- Concrete parameter record with a large base cap and no zoom. -/
def perfBaseParams : FractalParams :=
  { zoom := 1, maxIterations := 300, performanceMode := true,
    colorCycleSpeed := 0, animateJulia := false, autoZoom := false,
    autoRotate := true, autoHueShift := false, autoPower := false }

/-- C5 counterexample. With performance mode on and an animation active
(non-mobile, base cap 100, zoom 1000) the effective iteration cap is 200 —
not a ceiling of approximately 100. -/
theorem performance_cap_not_100 :
    effectiveIterations false perfZoomParams = 200 ∧
      ¬ (effectiveIterations false perfZoomParams ≤ 150) := by
  have hanim : isAnimating perfZoomParams := Or.inr (Or.inr (Or.inl rfl))
  have h : effectiveIterations false perfZoomParams = 200 := by
    unfold effectiveIterations
    rw [if_pos ⟨rfl, hanim⟩]
    unfold getAdaptiveIterations perfZoomParams
    rw [show max (1000 : ℝ) 1 = 1000 by norm_num, logb_ten_thousand]
    norm_num
  exact ⟨h, by rw [h]; norm_num⟩

/-- C5 (amended). Whenever performance mode is enabled and any animation is
active, the effective iteration cap is the minimum of the adaptive zoom-based
value and the fixed ceiling 200 (the adaptive formula is still applied; 200
replaces it only when the adaptive value is larger). -/
theorem performance_cap_min_200 (mobile : Bool) (p : FractalParams)
    (hperf : p.performanceMode = true) (hanim : isAnimating p) :
    effectiveIterations mobile p =
      min ⌊p.maxIterations * (1 + Real.logb 10 (max p.zoom 1) * 0.5)⌋ 200 := by
  unfold effectiveIterations
  rw [if_pos ⟨hperf, hanim⟩]
  unfold getAdaptiveIterations
  cases mobile <;> simp [min_assoc]

/-- C5 witness: the amended cap rule evaluated at a concrete record
(performance mode on, auto-rotate animation, base cap 300, zoom 1). -/
theorem performance_cap_min_200_witness :
    effectiveIterations false perfBaseParams = 200 := by
  have h := performance_cap_min_200 false perfBaseParams rfl
    (Or.inr (Or.inr (Or.inr (Or.inl rfl))))
  rw [h]
  unfold perfBaseParams
  rw [show max (1 : ℝ) 1 = 1 by norm_num, Real.logb_one]
  rw [show (300 : ℝ) * (1 + 0 * 0.5) = ((300 : ℤ) : ℝ) by norm_num, Int.floor_intCast]
  norm_num

/- ------------------------------------------------------------------ -/
/- C7: magnitude of the generalized power.                            -/
/- ------------------------------------------------------------------ -/

/-- C7. For every nonzero `z` and exponent `n ∈ [1,8]`, the magnitude of
`complexPow z n` is `|z|^n` up to the origin-guard tolerance `EPSILON`
(1e-10); away from the guard (`|z| ≥ EPSILON`) the equality is exact. -/
theorem complexPow_magnitude (z : V2) (n : ℝ) (hz : z ≠ ⟨0, 0⟩)
    (h1 : 1 ≤ n) (_h8 : n ≤ 8) :
    |lengthV (complexPow z n) - lengthV z ^ n| ≤ EPSILON ∧
      (EPSILON ≤ lengthV z → lengthV (complexPow z n) = lengthV z ^ n) := by
  have hr0 : 0 ≤ lengthV z := lengthV_nonneg z
  have hrpos : 0 < lengthV z := by
    rcases lt_or_eq_of_le hr0 with h | h
    · exact h
    · exfalso
      have hd : dotV z z = 0 := by
        have := Real.sqrt_eq_zero (dotV_nonneg z) |>.mp h.symm
        exact this
      have hx := mul_self_nonneg z.x
      have hy := mul_self_nonneg z.y
      have hx0 : z.x = 0 := by
        have : z.x * z.x = 0 := by unfold dotV at hd; nlinarith
        exact mul_self_eq_zero.mp this
      have hy0 : z.y = 0 := by
        have : z.y * z.y = 0 := by unfold dotV at hd; nlinarith
        exact mul_self_eq_zero.mp this
      exact hz (by ext <;> assumption)
  by_cases hguard : lengthV z < EPSILON
  · have hzero : complexPow z n = ⟨0, 0⟩ := by
      unfold complexPow; rw [if_pos hguard]
    have hlen0 : lengthV (⟨0, 0⟩ : V2) = 0 := by
      rw [lengthV_real_axis]; exact abs_zero
    have hle1 : lengthV z ≤ 1 := by
      have : EPSILON ≤ 1 := by unfold EPSILON; norm_num
      linarith
    have hpowle : lengthV z ^ n ≤ lengthV z ^ (1 : ℝ) :=
      Real.rpow_le_rpow_of_exponent_ge hrpos hle1 h1
    have hpow_nonneg : 0 ≤ lengthV z ^ n := Real.rpow_nonneg hr0 n
    constructor
    · rw [hzero, hlen0]
      rw [abs_of_nonpos (by linarith)]
      rw [Real.rpow_one] at hpowle
      linarith
    · intro habs; exfalso; linarith
  · push_neg at hguard
    have hpyth : Real.cos (n * atan2 z.y z.x) ^ 2 +
        Real.sin (n * atan2 z.y z.x) ^ 2 = 1 := Real.cos_sq_add_sin_sq _
    have heq : lengthV (complexPow z n) = lengthV z ^ n := by
      unfold complexPow
      rw [if_neg (not_lt.mpr hguard)]
      apply lengthV_eq_of_sq _ _ (Real.rpow_nonneg hr0 n)
      unfold dotV
      simp only [V2smul_x, V2smul_y]
      linear_combination (lengthV z ^ n) ^ 2 * hpyth
    exact ⟨by rw [heq, sub_self, abs_zero]; exact EPSILON_pos.le, fun _ => heq⟩

/-- C7 witness: the magnitude law applied at `z = (3,4)`, `n = 2`. -/
theorem complexPow_magnitude_witness :
    |lengthV (complexPow ⟨3, 4⟩ 2) - lengthV ⟨3, 4⟩ ^ (2 : ℝ)| ≤ EPSILON ∧
      (EPSILON ≤ lengthV ⟨3, 4⟩ →
        lengthV (complexPow ⟨3, 4⟩ 2) = lengthV ⟨3, 4⟩ ^ (2 : ℝ)) := by
  exact complexPow_magnitude ⟨3, 4⟩ 2
    (by intro h; have := congrArg V2.x h; norm_num at this)
    (by norm_num) (by norm_num)

/- ------------------------------------------------------------------ -/
/- Black is preserved by every post-processing stage.                 -/
/- ------------------------------------------------------------------ -/

lemma rgb2hsv_black : rgb2hsv ⟨0, 0, 0⟩ = ⟨0, 0, 0⟩ := by
  unfold rgb2hsv mix4 mixR stepR
  norm_num

lemma hsv2rgb_value_zero (h s : ℝ) : hsv2rgb ⟨h, s, 0⟩ = ⟨0, 0, 0⟩ := by
  unfold hsv2rgb
  ext <;> simp

lemma applyHueShift_black (u : Uniforms) : applyHueShift u ⟨0, 0, 0⟩ = ⟨0, 0, 0⟩ := by
  unfold applyHueShift
  by_cases h : u.hueShift > 0.001
  · rw [if_pos h, rgb2hsv_black]
    exact hsv2rgb_value_zero _ _
  · rw [if_neg h]

lemma applySaturation_black (u : Uniforms) : applySaturation u ⟨0, 0, 0⟩ = ⟨0, 0, 0⟩ := by
  unfold applySaturation dot3 mix3 mixR
  ext <;> norm_num

lemma applyGlow_black (u : Uniforms) (m colorVal : ℝ) (hm : m ≠ 0) :
    applyGlow u ⟨0, 0, 0⟩ m m colorVal = ⟨0, 0, 0⟩ := by
  unfold applyGlow
  by_cases h : u.glowIntensity > 0 ∧ u.fractalType ≠ 5
  · rw [if_pos h]
    dsimp only
    rw [div_self hm]
    rw [show (1 : ℝ) - 1 = 0 by norm_num]
    rw [Real.zero_rpow (by norm_num : (3 : ℝ) ≠ 0)]
    ext <;> simp
  · rw [if_neg h]

lemma applyPosterize_black (u : Uniforms) : applyPosterize u ⟨0, 0, 0⟩ = ⟨0, 0, 0⟩ := by
  unfold applyPosterize
  by_cases h : u.posterize > 1.5
  · rw [if_pos h]
    unfold div3 floor3
    ext <;> simp
  · rw [if_neg h]

lemma brightness_black (u : Uniforms) : u.brightness • (⟨0, 0, 0⟩ : V3) = ⟨0, 0, 0⟩ := by
  ext <;> simp

lemma clamp3_black : clamp3 ⟨0, 0, 0⟩ 0 1 = ⟨0, 0, 0⟩ := by
  unfold clamp3 clampR
  norm_num

lemma postProcess_black (u : Uniforms) (m colorVal : ℝ) (hm : m ≠ 0) :
    postProcess u ⟨0, 0, 0⟩ m m colorVal = ⟨0, 0, 0⟩ := by
  unfold postProcess
  dsimp only
  rw [applyHueShift_black, applySaturation_black, brightness_black,
    applyGlow_black u m colorVal hm, applyPosterize_black, clamp3_black]

/- ------------------------------------------------------------------ -/
/- C1: interior pixels render black for every setting.                -/
/- ------------------------------------------------------------------ -/

/-- C1. For every family except Newton and every coloring / post-processing
setting, a pixel whose orbit reaches the iteration cap without escaping
(`iter = maxIterations`) renders as black: the palette is bypassed and black
survives hue shift, saturation, brightness, glow and posterization. -/
theorem interior_pixel_black (u : Uniforms) (coord : V2)
    (hT : u.fractalType ≠ 5) (hM : 1 ≤ u.maxIterations)
    (hiter : (runIteration u coord).iter = u.maxIterations) :
    shadePixel u coord = ⟨0, 0, 0⟩ := by
  unfold shadePixel
  dsimp only
  rw [hiter]
  have hm : ((u.maxIterations : ℝ)) ≠ 0 := by
    have : (1 : ℝ) ≤ (u.maxIterations : ℝ) := by exact_mod_cast hM
    linarith
  split_ifs with h
  · exact postProcess_black u _ _ hm
  · exact absurd ⟨le_refl _, hT⟩ h

/- ------------------------------------------------------------------ -/
/- Unfolding lemmas for the main loop.                                -/
/- ------------------------------------------------------------------ -/

lemma famDispatch_iter (u : Uniforms) (s1 : IterState) (c : V2) :
    (famDispatch u s1 c).iter = s1.iter := by
  unfold famDispatch; split_ifs <;> rfl

lemma famDispatch_minDist (u : Uniforms) (s1 : IterState) (c : V2) :
    (famDispatch u s1 c).minDist = s1.minDist := by
  unfold famDispatch; split_ifs <;> rfl

lemma famDispatch_z_congr (u : Uniforms) (s t : IterState) (c : V2)
    (hz : s.z = t.z) (hp : s.prevZ = t.prevZ) :
    (famDispatch u s c).z = (famDispatch u t c).z := by
  unfold famDispatch; split_ifs <;> simp [hz, hp]

lemma iterLoop_succ_nonNewton (u : Uniforms) (hT : ¬ u.fractalType = 5) (c : V2)
    (fuel : ℕ) (s : IterState) :
    iterLoop u c (fuel + 1) s =
      if dotV (famDispatch u (updateOrbitStats u s) c).z
          (famDispatch u (updateOrbitStats u s) c).z >
          u.escapeRadius * u.escapeRadius then famDispatch u (updateOrbitStats u s) c
      else iterLoop u c fuel
        { famDispatch u (updateOrbitStats u s) c with
          iter := (famDispatch u (updateOrbitStats u s) c).iter + 1 } := by
  simp only [iterLoop]
  rw [if_neg hT]

lemma V2zero_add_zero : (⟨0, 0⟩ : V2) + ⟨0, 0⟩ = ⟨0, 0⟩ := by ext <;> simp

/- ------------------------------------------------------------------ -/
/- C3: the Mandelbrot orbit of the origin never escapes.              -/
/- ------------------------------------------------------------------ -/

lemma iterLoop_zero_orbit (u : Uniforms) (h0 : u.fractalType = 0) :
    ∀ (fuel : ℕ) (s : IterState), s.z = ⟨0, 0⟩ →
      (iterLoop u ⟨0, 0⟩ fuel s).z = ⟨0, 0⟩ ∧
        (iterLoop u ⟨0, 0⟩ fuel s).iter = s.iter + fuel := by
  intro fuel
  induction fuel with
  | zero => intro s hz; exact ⟨by simpa [iterLoop] using hz, by simp [iterLoop]⟩
  | succ n ih =>
    intro s hz
    have hT : ¬ u.fractalType = 5 := by rw [h0]; decide
    have h4 : ¬ u.fractalType = 4 := by rw [h0]; decide
    have h3 : ¬ u.fractalType = 3 := by rw [h0]; decide
    have h2 : ¬ u.fractalType = 2 := by rw [h0]; decide
    have hzz : iterateMandelbrotJulia u (updateOrbitStats u s).z ⟨0, 0⟩ = ⟨0, 0⟩ := by
      rw [updateOrbitStats_z, hz]
      unfold iterateMandelbrotJulia
      rw [complexPow_zero_vec, V2zero_add_zero]
    have hfam : famDispatch u (updateOrbitStats u s) ⟨0, 0⟩ =
        ⟨⟨0, 0⟩, s.prevZ, s.iter, (updateOrbitStats u s).minDist,
          (updateOrbitStats u s).totalAngle, (updateOrbitStats u s).stripe,
          s.rootIndex⟩ := by
      unfold famDispatch
      rw [if_neg h4, if_neg h3, if_neg h2, hzz]
      simp only [updateOrbitStats_prevZ, updateOrbitStats_iter, updateOrbitStats_rootIndex]
    have hnoesc : ¬ dotV (⟨0, 0⟩ : V2) ⟨0, 0⟩ > u.escapeRadius * u.escapeRadius := by
      unfold dotV
      simp only [mul_zero, add_zero]
      exact not_lt.mpr (mul_self_nonneg _)
    rw [iterLoop_succ_nonNewton u hT _ n s, hfam]
    dsimp only
    rw [if_neg hnoesc]
    have hi := ih ⟨⟨0, 0⟩, s.prevZ, s.iter + 1, (updateOrbitStats u s).minDist,
      (updateOrbitStats u s).totalAngle, (updateOrbitStats u s).stripe,
      s.rootIndex⟩ rfl
    refine ⟨hi.1, ?_⟩
    rw [hi.2]
    show s.iter + 1 + n = s.iter + (n + 1)
    omega

lemma runIteration_zero_coord (u : Uniforms) (h0 : u.fractalType = 0)
    (h2 : u.maxIterations ≤ 10000) :
    (runIteration u ⟨0, 0⟩).iter = u.maxIterations := by
  have heff : effC u ⟨0, 0⟩ = ⟨0, 0⟩ := by
    unfold effC; rw [if_neg (by rw [h0]; decide)]
  have hz0 : (initState u ⟨0, 0⟩).z = ⟨0, 0⟩ := by
    show initZ u ⟨0, 0⟩ = ⟨0, 0⟩
    unfold initZ
    rw [if_neg (by rw [h0]; decide), if_neg (by rw [h0]; decide)]
  unfold runIteration
  rw [heff]
  rw [(iterLoop_zero_orbit u h0 (min u.maxIterations 10000) _ hz0).2]
  show 0 + min u.maxIterations 10000 = u.maxIterations
  omega

/-- C3. Mandelbrot at plane coordinate `c = 0` never escapes for any iteration
cap in `[1, 10000]`: the loop runs to the cap (reported interior) and the
rendered output is black. -/
theorem mandelbrot_origin_interior_black (u : Uniforms) (h0 : u.fractalType = 0)
    (h1 : 1 ≤ u.maxIterations) (h2 : u.maxIterations ≤ 10000) :
    (runIteration u ⟨0, 0⟩).iter = u.maxIterations ∧ shadePixel u ⟨0, 0⟩ = ⟨0, 0, 0⟩ := by
  have hIter := runIteration_zero_coord u h0 h2
  refine ⟨hIter, ?_⟩
  unfold shadePixel
  dsimp only
  rw [hIter]
  have hm : ((u.maxIterations : ℝ)) ≠ 0 := by
    have : (1 : ℝ) ≤ (u.maxIterations : ℝ) := by exact_mod_cast h1
    linarith
  split_ifs with h
  · exact postProcess_black u _ _ hm
  · exact absurd ⟨le_refl _, by rw [h0]; decide⟩ h

/-- C3 witness: the default parameter record (Mandelbrot, cap 100, smooth
coloring, classic palette) at plane coordinate `(0,0)`. -/
theorem mandelbrot_origin_interior_black_witness :
    (runIteration defaultUniforms ⟨0, 0⟩).iter = defaultUniforms.maxIterations ∧
      shadePixel defaultUniforms ⟨0, 0⟩ = ⟨0, 0, 0⟩ :=
  mandelbrot_origin_interior_black defaultUniforms rfl (by norm_num [defaultUniforms])
    (by norm_num [defaultUniforms])

/-- C1 witness: a default-style record with iteration cap 50; the origin orbit
reaches the cap, and the pixel renders black. -/
theorem interior_pixel_black_witness :
    shadePixel { defaultUniforms with maxIterations := 50 } ⟨0, 0⟩ = ⟨0, 0, 0⟩ := by
  apply interior_pixel_black _ _ (by decide) (by norm_num)
  exact runIteration_zero_coord _ rfl (by norm_num)

/- ------------------------------------------------------------------ -/
/- C2: escape on the very first transition.                           -/
/- ------------------------------------------------------------------ -/

lemma runIteration_escape_first (u : Uniforms) (coord : V2) (hT : ¬ u.fractalType = 5)
    (hM : 1 ≤ u.maxIterations)
    (hesc : dotV (firstStepZ u coord) (firstStepZ u coord) >
      u.escapeRadius * u.escapeRadius) :
    runIteration u coord =
      famDispatch u (updateOrbitStats u (initState u coord)) (effC u coord) := by
  have hz1 : (famDispatch u (updateOrbitStats u (initState u coord)) (effC u coord)).z =
      firstStepZ u coord :=
    famDispatch_z_congr u _ _ _ rfl rfl
  obtain ⟨m, hm⟩ : ∃ m, min u.maxIterations 10000 = m + 1 :=
    ⟨min u.maxIterations 10000 - 1, by omega⟩
  unfold runIteration
  rw [hm, iterLoop_succ_nonNewton u hT _ m _]
  rw [if_pos (by rw [hz1]; exact hesc)]

lemma runIteration_escape_first_iter (u : Uniforms) (coord : V2)
    (hT : ¬ u.fractalType = 5) (hM : 1 ≤ u.maxIterations)
    (hesc : dotV (firstStepZ u coord) (firstStepZ u coord) >
      u.escapeRadius * u.escapeRadius) :
    (runIteration u coord).iter = 0 := by
  rw [runIteration_escape_first u coord hT hM hesc, famDispatch_iter]
  rfl

lemma firstStepZ_mandelbrot (u : Uniforms) (h0 : u.fractalType = 0) (coord : V2) :
    firstStepZ u coord = complexPow ⟨0, 0⟩ u.power + coord := by
  unfold firstStepZ famDispatch
  rw [if_neg (by rw [h0]; decide), if_neg (by rw [h0]; decide),
    if_neg (by rw [h0]; decide)]
  dsimp only
  unfold iterateMandelbrotJulia
  have hz : (initState u coord).z = ⟨0, 0⟩ := by
    show initZ u coord = ⟨0, 0⟩
    unfold initZ
    rw [if_neg (by rw [h0]; decide), if_neg (by rw [h0]; decide)]
  have hc : effC u coord = coord := by
    unfold effC
    rw [if_neg (by rw [h0]; decide)]
  rw [hz, hc]

/-- C2. For every family except Newton, a plane coordinate whose first loop
transition already exceeds the escape radius yields `iterationsUsed = 0` and a
non-interior (palette) color, provided the iteration cap is at least 1. -/
theorem escape_step_zero (u : Uniforms) (coord : V2) (hT : u.fractalType ≠ 5)
    (hM : 1 ≤ u.maxIterations)
    (hesc : dotV (firstStepZ u coord) (firstStepZ u coord) >
      u.escapeRadius * u.escapeRadius) :
    (runIteration u coord).iter = 0 ∧
      shadePixel u coord =
        postProcess u (getColorScheme (finalColorVal u (runIteration u coord)) u.colorScheme)
          ((runIteration u coord).iter : ℝ) (u.maxIterations : ℝ)
          (finalColorVal u (runIteration u coord)) := by
  have hiter0 := runIteration_escape_first_iter u coord hT hM hesc
  refine ⟨hiter0, ?_⟩
  unfold shadePixel
  dsimp only
  rw [hiter0]
  have hcond : ¬ (((0 : ℕ) : ℝ) ≥ (u.maxIterations : ℝ) ∧ u.fractalType ≠ 5) := by
    rintro ⟨hge, -⟩
    have h1 : (1 : ℝ) ≤ (u.maxIterations : ℝ) := by exact_mod_cast hM
    rw [Nat.cast_zero] at hge
    linarith
  rw [if_neg hcond]

/-- C2 witness: the default record with cap 1 at plane coordinate `(5,0)`:
the first iterate is `(5,0)`, `|z|² = 25 > 16`, so zero iterations are used and
the palette branch is taken. -/
theorem escape_step_zero_witness :
    (runIteration { defaultUniforms with maxIterations := 1 } ⟨5, 0⟩).iter = 0 ∧
      shadePixel { defaultUniforms with maxIterations := 1 } ⟨5, 0⟩ =
        postProcess { defaultUniforms with maxIterations := 1 }
          (getColorScheme
            (finalColorVal { defaultUniforms with maxIterations := 1 }
              (runIteration { defaultUniforms with maxIterations := 1 } ⟨5, 0⟩))
            ({ defaultUniforms with maxIterations := 1 } : Uniforms).colorScheme)
          ((runIteration { defaultUniforms with maxIterations := 1 } ⟨5, 0⟩).iter : ℝ)
          (({ defaultUniforms with maxIterations := 1 } : Uniforms).maxIterations : ℝ)
          (finalColorVal { defaultUniforms with maxIterations := 1 }
            (runIteration { defaultUniforms with maxIterations := 1 } ⟨5, 0⟩)) := by
  apply escape_step_zero _ _ (by decide) (by norm_num)
  rw [firstStepZ_mandelbrot _ rfl, complexPow_zero_vec]
  show dotV (⟨0 + 5, 0 + 0⟩ : V2) ⟨0 + 5, 0 + 0⟩ > (4 : ℝ) * 4
  unfold dotV
  norm_num

/- ------------------------------------------------------------------ -/
/- C10: the z₀ = 0 families trap the orbit at distance 0.             -/
/- ------------------------------------------------------------------ -/

lemma iterLoop_minDist_zero (u : Uniforms) (hT : ¬ u.fractalType = 5) (c : V2) :
    ∀ (fuel : ℕ) (s : IterState), s.minDist = 0 →
      (iterLoop u c fuel s).minDist = 0 := by
  intro fuel
  induction fuel with
  | zero => intro s h; simpa [iterLoop] using h
  | succ n ih =>
    intro s h
    have hupd : (updateOrbitStats u s).minDist = 0 := by
      show min s.minDist (lengthV s.z) = 0
      rw [h]
      exact min_eq_left (lengthV_nonneg _)
    rw [iterLoop_succ_nonNewton u hT c n s]
    split_ifs with hesc
    · rw [famDispatch_minDist]; exact hupd
    · apply ih
      show (famDispatch u (updateOrbitStats u s) c).minDist = 0
      rw [famDispatch_minDist]; exact hupd

/-- C10. For the families whose orbit starts at `z₀ = 0` (Mandelbrot, Burning
Ship, Tricorn, Phoenix), the orbit statistics record the pre-transition `z`, so
step 0 records distance 0: every escaping pixel has minimum orbit distance 0,
and the orbit-trap coloring scalar equals 1 regardless of the trap size. -/
theorem orbit_trap_escaping_one (u : Uniforms) (coord : V2)
    (hfam : u.fractalType = 0 ∨ u.fractalType = 2 ∨ u.fractalType = 3 ∨ u.fractalType = 4)
    (hesc : (runIteration u coord).iter < min u.maxIterations 10000) :
    (runIteration u coord).minDist = 0 ∧
      calcOrbitTrapColor u (runIteration u coord).minDist = 1 := by
  have hT : ¬ u.fractalType = 5 := by rcases hfam with h | h | h | h <;> rw [h] <;> decide
  have h1 : ¬ u.fractalType = 1 := by rcases hfam with h | h | h | h <;> rw [h] <;> decide
  have hz0 : (initState u coord).z = ⟨0, 0⟩ := by
    show initZ u coord = ⟨0, 0⟩
    unfold initZ
    rw [if_neg h1, if_neg hT]
  obtain ⟨m, hm⟩ : ∃ m, min u.maxIterations 10000 = m + 1 :=
    ⟨min u.maxIterations 10000 - 1, by omega⟩
  have hupd : (updateOrbitStats u (initState u coord)).minDist = 0 := by
    show min (initState u coord).minDist (lengthV (initState u coord).z) = 0
    rw [hz0, show lengthV ⟨0, 0⟩ = |(0 : ℝ)| from lengthV_real_axis 0, abs_zero]
    show min (1e20 : ℝ) 0 = 0
    exact min_eq_right (by norm_num)
  have hmin0 : (runIteration u coord).minDist = 0 := by
    unfold runIteration
    rw [hm, iterLoop_succ_nonNewton u hT _ m _]
    split_ifs with h
    · rw [famDispatch_minDist]; exact hupd
    · apply iterLoop_minDist_zero u hT _ m _
      show (famDispatch u (updateOrbitStats u (initState u coord)) (effC u coord)).minDist = 0
      rw [famDispatch_minDist]; exact hupd
  refine ⟨hmin0, ?_⟩
  rw [hmin0]
  unfold calcOrbitTrapColor clampR
  rw [zero_div]
  norm_num

/-- C10 witness: Mandelbrot with cap 5 at `(6,0)` escapes on step 0; the
minimum orbit distance is 0 and the orbit-trap scalar is 1. -/
theorem orbit_trap_escaping_one_witness :
    (runIteration { defaultUniforms with maxIterations := 5 } ⟨6, 0⟩).minDist = 0 ∧
      calcOrbitTrapColor { defaultUniforms with maxIterations := 5 }
        (runIteration { defaultUniforms with maxIterations := 5 } ⟨6, 0⟩).minDist = 1 := by
  apply orbit_trap_escaping_one _ _ (Or.inl rfl)
  have h0 := runIteration_escape_first_iter { defaultUniforms with maxIterations := 5 } ⟨6, 0⟩
    (by decide) (by norm_num) ?_
  · rw [h0]; norm_num
  · rw [firstStepZ_mandelbrot _ rfl, complexPow_zero_vec]
    show dotV (⟨0 + 6, 0 + 0⟩ : V2) ⟨0 + 6, 0 + 0⟩ > (4 : ℝ) * 4
    unfold dotV
    norm_num

/- ------------------------------------------------------------------ -/
/- C6: convergence of the Newton iterator from z₀ = 2.                -/
/- ------------------------------------------------------------------ -/

/-- One Newton update on the positive real axis: for `x ≥ 1` the step maps
`(x,0)` to `((2x³+1)/(3x²), 0)` and reports convergence exactly when the new
value is within the tolerance of the root `1`. -/
lemma iterateNewton_real (x : ℝ) (hx : 1 ≤ x) :
    iterateNewton ⟨x, 0⟩ =
      (⟨(2 * x ^ 3 + 1) / (3 * x ^ 2), 0⟩,
        if |(2 * x ^ 3 + 1) / (3 * x ^ 2) - 1| < NEWTON_TOLERANCE then 0 else -1) := by
  have hx0 : (0 : ℝ) < x := by linarith
  have hxx : (1 : ℝ) ≤ x * x := by nlinarith
  unfold iterateNewton complexMul
  dsimp only
  simp only [V2smul_mk, mul_zero, zero_mul, add_zero, sub_zero, zero_add]
  rw [lengthV_real_axis]
  rw [if_neg (show ¬ |3 * (x * x)| < EPSILON by
    rw [abs_of_nonneg (by positivity)]
    unfold EPSILON
    nlinarith [hxx])]
  unfold complexDiv
  dsimp only
  simp only [mul_zero, zero_mul, add_zero, sub_zero, zero_add]
  rw [if_neg (show ¬ 3 * (x * x) * (3 * (x * x)) < EPSILON by
    unfold EPSILON
    nlinarith [hxx])]
  have hval : x - (x * x * x - 1) * (3 * (x * x)) / (3 * (x * x) * (3 * (x * x))) =
      (2 * x ^ 3 + 1) / (3 * x ^ 2) := by
    have hne : x ≠ 0 := ne_of_gt hx0
    field_simp
    ring
  simp only [V2mk_sub_mk, mul_zero, zero_mul, sub_zero, zero_add, add_zero,
    zero_div, zero_sub, neg_zero]
  rw [hval]
  unfold NEWTON_ROOT_1 NEWTON_ROOT_2 NEWTON_ROOT_3
  simp only [V2mk_sub_mk, sub_zero, zero_sub, neg_neg]
  rw [lengthV_real_axis]
  rw [if_neg (show ¬ lengthV ⟨(2 * x ^ 3 + 1) / (3 * x ^ 2) - -0.5, -0.866025⟩ <
      NEWTON_TOLERANCE by
    apply not_lt.mpr
    refine le_trans ?_ (abs_y_le_lengthV _)
    show NEWTON_TOLERANCE ≤ |(-0.866025 : ℝ)|
    unfold NEWTON_TOLERANCE
    rw [abs_of_nonpos (by norm_num)]
    norm_num)]
  rw [if_neg (show ¬ lengthV ⟨(2 * x ^ 3 + 1) / (3 * x ^ 2) - -0.5, 0.866025⟩ <
      NEWTON_TOLERANCE by
    apply not_lt.mpr
    refine le_trans ?_ (abs_y_le_lengthV _)
    show NEWTON_TOLERANCE ≤ |(0.866025 : ℝ)|
    unfold NEWTON_TOLERANCE
    rw [abs_of_nonneg (by norm_num)]
    norm_num)]

/-- `updateOrbitStats` on a state lying on the positive real axis: the minimum
distance absorbs `x` and the stripe/angle sums are unchanged (the angle of a
positive real is 0). -/
lemma updateOrbitStats_real (u : Uniforms) (s : IterState) (x : ℝ)
    (hz : s.z = ⟨x, 0⟩) (hx : 1 ≤ x) :
    updateOrbitStats u s =
      ⟨s.z, s.prevZ, s.iter, min s.minDist x, s.totalAngle, s.stripe, s.rootIndex⟩ := by
  have hd : lengthV s.z = x := by
    rw [hz, lengthV_real_axis]
    exact abs_of_nonneg (by linarith)
  have hangle : atan2 s.z.y s.z.x = 0 := by
    rw [hz]
    exact atan2_zero_of_pos x (by linarith)
  unfold updateOrbitStats
  dsimp only
  rw [hd, hangle]
  rw [if_pos (show x > EPSILON by unfold EPSILON; linarith)]
  rw [zero_mul, Real.sin_zero, add_zero, add_zero]
  simp only [ite_self]

/-- One unfolding of the main loop in the Newton branch. -/
lemma iterLoop_newton_succ (u : Uniforms) (h5 : u.fractalType = 5) (c : V2)
    (fuel : ℕ) (s : IterState) :
    iterLoop u c (fuel + 1) s =
      if 0 ≤ (iterateNewton (updateOrbitStats u s).z).2 then
        ⟨(iterateNewton (updateOrbitStats u s).z).1, (updateOrbitStats u s).prevZ,
          (updateOrbitStats u s).iter, (updateOrbitStats u s).minDist,
          (updateOrbitStats u s).totalAngle, (updateOrbitStats u s).stripe,
          (iterateNewton (updateOrbitStats u s).z).2⟩
      else iterLoop u c fuel
        ⟨(iterateNewton (updateOrbitStats u s).z).1, (updateOrbitStats u s).prevZ,
          (updateOrbitStats u s).iter + 1, (updateOrbitStats u s).minDist,
          (updateOrbitStats u s).totalAngle, (updateOrbitStats u s).stripe,
          (iterateNewton (updateOrbitStats u s).z).2⟩ := by
  simp only [iterLoop]
  rw [if_pos h5]

/-- A non-converging Newton loop step from a real-axis state: the state advances
to the next Newton iterate and the counter increments. -/
lemma newton_step_chain (u : Uniforms) (h5 : u.fractalType = 5) (c : V2) (fuel : ℕ)
    (zx md md2 : ℝ) (prev : V2) (it : ℕ) (ri : ℤ) (hx : 1 ≤ zx)
    (hmd : min md zx = md2)
    (hno : ¬ |(2 * zx ^ 3 + 1) / (3 * zx ^ 2) - 1| < NEWTON_TOLERANCE) :
    iterLoop u c (fuel + 1) ⟨⟨zx, 0⟩, prev, it, md, 0, 0, ri⟩ =
      iterLoop u c fuel
        ⟨⟨(2 * zx ^ 3 + 1) / (3 * zx ^ 2), 0⟩, prev, it + 1, md2, 0, 0, -1⟩ := by
  rw [iterLoop_newton_succ u h5 c fuel _]
  rw [updateOrbitStats_real u _ zx rfl hx]
  dsimp only
  rw [iterateNewton_real zx hx]
  dsimp only
  rw [if_neg hno, hmd]
  rw [if_neg (by norm_num : ¬ (0 : ℤ) ≤ -1)]

/-- A converging Newton loop step from a real-axis state: the loop breaks with
`rootIndex = 0` and the counter not incremented. -/
lemma newton_final_step (u : Uniforms) (h5 : u.fractalType = 5) (c : V2) (fuel : ℕ)
    (zx md md2 : ℝ) (prev : V2) (it : ℕ) (ri : ℤ) (hx : 1 ≤ zx)
    (hmd : min md zx = md2)
    (hyes : |(2 * zx ^ 3 + 1) / (3 * zx ^ 2) - 1| < NEWTON_TOLERANCE) :
    iterLoop u c (fuel + 1) ⟨⟨zx, 0⟩, prev, it, md, 0, 0, ri⟩ =
      ⟨⟨(2 * zx ^ 3 + 1) / (3 * zx ^ 2), 0⟩, prev, it, md2, 0, 0, 0⟩ := by
  rw [iterLoop_newton_succ u h5 c fuel _]
  rw [updateOrbitStats_real u _ zx rfl hx]
  dsimp only
  rw [iterateNewton_real zx hx]
  dsimp only
  rw [if_pos hyes, hmd]
  rw [if_pos (le_refl (0 : ℤ))]

/-- The default record switched to the Newton family with iteration cap 10. -/
def newtonUniforms : Uniforms :=
  { defaultUniforms with fractalType := 5, maxIterations := 10 }

/-- C6. The root-finding (Newton) iterator for `z³ - 1` seeded at `z₀ = 2+0i`
converges to the root `1+0i` within the tolerance 1e-4 in fewer than 10 steps:
with cap 10 the loop stops with `rootIndex = 0` after 4 counted iterations. -/
theorem newton_converges_under_10 :
    (runIteration newtonUniforms ⟨2, 0⟩).rootIndex = 0 ∧
      (runIteration newtonUniforms ⟨2, 0⟩).iter < 10 ∧
      lengthV ((runIteration newtonUniforms ⟨2, 0⟩).z - NEWTON_ROOT_1) <
        NEWTON_TOLERANCE := by
  have hinit : runIteration newtonUniforms ⟨2, 0⟩ =
      iterLoop newtonUniforms ⟨2, 0⟩ 10 ⟨⟨2, 0⟩, ⟨0, 0⟩, 0, 1e20, 0, 0, -1⟩ := by
    unfold runIteration
    have hc : effC newtonUniforms ⟨2, 0⟩ = ⟨2, 0⟩ := by
      unfold effC; rw [if_neg (by decide)]
    have hz : initState newtonUniforms ⟨2, 0⟩ = ⟨⟨2, 0⟩, ⟨0, 0⟩, 0, 1e20, 0, 0, -1⟩ := by
      unfold initState initZ
      rw [if_neg (by decide), if_pos (by decide)]
    rw [hc, hz]
    norm_num [newtonUniforms, defaultUniforms]
  rw [hinit]
  rw [show (10 : ℕ) = 9 + 1 by norm_num]
  rw [newton_step_chain newtonUniforms rfl ⟨2, 0⟩ 9 2 1e20 2 ⟨0, 0⟩ 0 (-1)
    (by norm_num) (by rw [min_def]; norm_num)
    (by rw [abs_of_nonneg (by norm_num)]; unfold NEWTON_TOLERANCE; norm_num)]
  rw [show (2 * (2 : ℝ) ^ 3 + 1) / (3 * (2 : ℝ) ^ 2) = 17 / 12 by norm_num]
  rw [show (9 : ℕ) = 8 + 1 by norm_num]
  rw [newton_step_chain newtonUniforms rfl ⟨2, 0⟩ 8 (17 / 12) 2 (17 / 12) ⟨0, 0⟩
    (0 + 1) (-1) (by norm_num) (by rw [min_def]; norm_num)
    (by rw [abs_of_nonneg (by norm_num)]; unfold NEWTON_TOLERANCE; norm_num)]
  rw [show (2 * ((17 : ℝ) / 12) ^ 3 + 1) / (3 * ((17 : ℝ) / 12) ^ 2) = 5777 / 5202 by
    norm_num]
  rw [show (8 : ℕ) = 7 + 1 by norm_num]
  rw [newton_step_chain newtonUniforms rfl ⟨2, 0⟩ 7 (5777 / 5202) (17 / 12)
    (5777 / 5202) ⟨0, 0⟩ (0 + 1 + 1) (-1) (by norm_num) (by rw [min_def]; norm_num)
    (by rw [abs_of_nonneg (by norm_num)]; unfold NEWTON_TOLERANCE; norm_num)]
  rw [show (2 * ((5777 : ℝ) / 5202) ^ 3 + 1) / (3 * ((5777 : ℝ) / 5202) ^ 2) =
      263185183637 / 260415207387 by norm_num]
  rw [show (7 : ℕ) = 6 + 1 by norm_num]
  rw [newton_step_chain newtonUniforms rfl ⟨2, 0⟩ 6 (263185183637 / 260415207387)
    (5777 / 5202) (263185183637 / 260415207387) ⟨0, 0⟩ (0 + 1 + 1 + 1) (-1)
    (by norm_num) (by rw [min_def]; norm_num)
    (by rw [abs_of_nonneg (by norm_num)]; unfold NEWTON_TOLERANCE; norm_num)]
  rw [show (2 * ((263185183637 : ℝ) / 260415207387) ^ 3 + 1) /
      (3 * ((263185183637 : ℝ) / 260415207387) ^ 2) =
      54120140528408499643410196757821309 / 54114103704893551446293064537508809 by
    norm_num]
  rw [show (6 : ℕ) = 5 + 1 by norm_num]
  rw [newton_final_step newtonUniforms rfl ⟨2, 0⟩ 5
    (54120140528408499643410196757821309 / 54114103704893551446293064537508809)
    (263185183637 / 260415207387)
    (54120140528408499643410196757821309 / 54114103704893551446293064537508809)
    ⟨0, 0⟩ (0 + 1 + 1 + 1 + 1) (-1) (by norm_num) (by rw [min_def]; norm_num)
    (by rw [abs_of_nonneg (by norm_num)]; unfold NEWTON_TOLERANCE; norm_num)]
  refine ⟨rfl, by norm_num, ?_⟩
  unfold NEWTON_ROOT_1
  simp only [V2mk_sub_mk, sub_zero]
  rw [lengthV_real_axis]
  rw [abs_of_nonneg (by norm_num)]
  unfold NEWTON_TOLERANCE
  norm_num

end


